import Mathlib

set_option maxRecDepth 8000
set_option maxHeartbeats 1000000

/-
  Shallow embedding of the wireguard-tune control-plane orchestrator
  (Go sources under conf/, manager/, tunnel/).  Strings are embedded as
  `List Char`; machine integers as `Nat` with explicit `% 2^32` where
  the Go code can overflow; fallible Go functions return `Except`/`Option`.
-/

namespace WgTune

/-- Convert a Lean string literal to the character-list representation. -/
def str (s : String) : List Char := s.data

/-- Characters removed by Go's strings.TrimSpace in the Latin-1 range
(the configuration grammar is ASCII). -/
def isGoSpace (c : Char) : Bool :=
  c = ' ' || c = '\t' || c = '\n' || c.toNat = 11 || c.toNat = 12 || c = '\r' ||
  c.toNat = 0x85 || c.toNat = 0xA0

def trimLeft : List Char → List Char
  | [] => []
  | c :: cs => if isGoSpace c then trimLeft cs else c :: cs

/-- Go strings.TrimSpace. -/
def trimSpace (s : List Char) : List Char :=
  ((trimLeft ((trimLeft s).reverse)).reverse)

/-- Go strings.HasPrefix s pre. -/
def startsWith : List Char → List Char → Bool
  | _, [] => true
  | [], _ :: _ => false
  | c :: cs, p :: ps => c == p && startsWith cs ps

/-- The part of the line before the first `sep`: Go strings.Cut, keeping
only the `before` component (as in `line, _, _ = strings.Cut(line, "#")`). -/
def cutAt (sep : Char) : List Char → List Char
  | [] => []
  | c :: cs => if c = sep then [] else c :: cutAt sep cs

/-- Go strings.Split on a single-character separator (empty parts kept). -/
def splitOnChar (sep : Char) : List Char → List (List Char)
  | [] => [[]]
  | c :: cs =>
    if c = sep then [] :: splitOnChar sep cs
    else
      match splitOnChar sep cs with
      | [] => [[c]]
      | p :: ps => (c :: p) :: ps

/-- Go strings.IndexByte (None for -1). -/
def indexOfChar (sep : Char) : List Char → Option Nat
  | [] => none
  | c :: cs => if c = sep then some 0 else (indexOfChar sep cs).map (· + 1)

/-- Go strings.LastIndexByte (None for -1). -/
def lastIndexOfChar (sep : Char) (s : List Char) : Option Nat :=
  (indexOfChar sep s.reverse).map (fun i => s.length - 1 - i)

/-- Go strings.Contains for a single-character substring. -/
def containsChar (sep : Char) (s : List Char) : Bool :=
  s.any (· == sep)

/-- ASCII case folding; the keys and section names of the grammar are ASCII. -/
def asciiLower (c : Char) : Char :=
  if 'A' ≤ c && c ≤ 'Z' then Char.ofNat (c.toNat + 32) else c

/-- Go strings.EqualFold, restricted to ASCII folding. -/
def equalFold (a b : List Char) : Bool :=
  a.map asciiLower == b.map asciiLower

def digitVal (c : Char) : Option Nat :=
  if '0' ≤ c && c ≤ '9' then some (c.toNat - 48) else none

def parseDigitsNat (s : List Char) : Option Nat :=
  if s.isEmpty then none
  else s.foldl (fun acc c =>
    match acc, digitVal c with
    | some a, some d => some (a * 10 + d)
    | _, _ => none) (some 0)

/-- Go strconv.Atoi (base-10 ParseInt on a 64-bit platform): optional sign,
one or more digits, out-of-range 64-bit values are errors. -/
def goAtoi (s : List Char) : Option Int :=
  match s with
  | '+' :: r =>
    match parseDigitsNat r with
    | none => none
    | some n => if n ≤ 2 ^ 63 - 1 then some (n : Int) else none
  | '-' :: r =>
    match parseDigitsNat r with
    | none => none
    | some n => if n ≤ 2 ^ 63 then some (-(n : Int)) else none
  | r =>
    match parseDigitsNat r with
    | none => none
    | some n => if n ≤ 2 ^ 63 - 1 then some (n : Int) else none

/-- Go strconv.ParseUint(s, 10, 32): digits only, must fit in 32 bits. -/
def goParseUint32 (s : List Char) : Option Nat :=
  match parseDigitsNat s with
  | none => none
  | some n => if n < 2 ^ 32 then some n else none

/-- The distinct failure cases of the conf parser (conf ParseError values and
raw strconv errors passed through). -/
inductive ParseErr where
  | invalidIP
  | missingBracket
  | missingPortSep
  | missingPort
  | unbracketedIPv6
  | emptyHost
  | invalidMTU
  | invalidPort
  | invalidKeepalive
  | atoiFailed
  | invalidKey
  | keyLength
  | twoCommas
  | tunnelName
  | lineOutsideSection
  | missingEquals
  | emptyValue
  | unknownInterfaceKey
  | unknownPeerKey
  | noPrivateKey
  | peerNoPublicKey
  | tableValue
deriving Repr, DecidableEq

structure Endpoint where
  host : List Char
  port : Nat
deriving Repr, DecidableEq

/-- conf parsePort. -/
def parsePort (s : List Char) : Except ParseErr Nat :=
  match goAtoi s with
  | none => .error .atoiFailed
  | some m => if m < 0 ∨ m > 65535 then .error .invalidPort else .ok m.toNat

/-- conf parseEndpoint: bracketed-host branch, yielding host and port string. -/
def endpointSplit (s : List Char) : Except ParseErr (List Char × List Char) :=
  if startsWith s [ '[' ] then
    match indexOfChar ']' s with
    | none => .error .missingBracket
    | some endIndex =>
      let host := (s.take endIndex).drop 1
      let remainder := s.drop (endIndex + 1)
      if startsWith remainder [ ':' ] then .ok (host, remainder.drop 1)
      else .error .missingPortSep
  else
    match lastIndexOfChar ':' s with
    | none => .error .missingPort
    | some i =>
      let host := s.take i
      let portStr := s.drop (i + 1)
      if containsChar ':' host then .error .unbracketedIPv6
      else .ok (host, portStr)

/-- conf parseEndpoint (manager/uiprocess.go parser part, lines 354-394). -/
def parseEndpoint (s : List Char) : Except ParseErr Endpoint :=
  match endpointSplit s with
  | .error e => .error e
  | .ok (host, portStr) =>
    if host.length = 0 then .error .emptyHost
    else
      match parsePort portStr with
      | .error e => .error e
      | .ok port => .ok ⟨host, port⟩

end WgTune

namespace WgTune

/-- A parsed network address in the manner of Go net/netip.Addr: the
family tag, the big-endian integer value (< 2^32 or 2^128) and the zone. -/
structure GoAddr where
  is4 : Bool
  val : Nat
  zone : List Char
deriving Repr, DecidableEq

/-- net/netip parseIPv4: recursion over the characters, carrying the
current field value, the digits seen in the current field, and the
completed fields; mirrors parseIPv4Fields. -/
def parseIPv4Go : List Char → Nat → Nat → List Nat → Option (List Nat)
  | [], val, _, fields =>
    if fields.length < 3 then none else some (fields ++ [val])
  | c :: cs, val, digLen, fields =>
    if '0' ≤ c ∧ c ≤ '9' then
      if digLen = 1 ∧ val = 0 then none
      else
        let val' := val * 10 + (c.toNat - 48)
        if val' > 255 then none else parseIPv4Go cs val' (digLen + 1) fields
    else if c = '.' then
      if digLen = 0 ∨ cs = [] then none
      else if fields.length = 3 then none
      else parseIPv4Go cs 0 0 (fields ++ [val])
    else none

def bytesToNat (bs : List Nat) : Nat :=
  bs.foldl (fun a b => a * 256 + b) 0

/-- netip parseIPv4 to an Addr. -/
def parseIPv4 (s : List Char) : Option GoAddr :=
  (parseIPv4Go s 0 0 []).map (fun f => ⟨true, bytesToNat f, []⟩)

def hexVal (c : Char) : Option Nat :=
  if '0' ≤ c && c ≤ '9' then some (c.toNat - 48)
  else if 'a' ≤ c && c ≤ 'f' then some (c.toNat - 97 + 10)
  else if 'A' ≤ c && c ≤ 'F' then some (c.toNat - 65 + 10)
  else none

/-- Consume a leading group of at most four hex digits (netip parseIPv6's
inner digit loop); none signals the "more than 4 digits" error. -/
def takeHexGroup : List Char → Nat → Nat → Option (Nat × Nat × List Char)
  | [], acc, off => some (acc, off, [])
  | c :: cs, acc, off =>
    match hexVal c with
    | none => some (acc, off, c :: cs)
    | some d => if off ≥ 4 then none else takeHexGroup cs (acc * 16 + d) (off + 1)

/-- The main field loop of netip parseIPv6, with fuel (each iteration
consumes at least one character, so `s.length + 1` fuel is exact).
Returns the bytes written, the write position and the ellipsis position. -/
def parseIPv6Loop (fuel : Nat) (s : List Char) (ip : List Nat) (i : Nat)
    (ell : Option Nat) : Option (List Nat × Nat × Option Nat) :=
  match fuel with
  | 0 => none
  | fuel + 1 =>
    if i ≥ 16 then (if s = [] then some (ip, i, ell) else none)
    else
      match takeHexGroup s 0 0 with
      | none => none
      | some (acc, off, rest) =>
        if off = 0 then none
        else if startsWith rest [ '.' ] then
          if (ell = none ∧ i ≠ 12) ∨ i + 4 > 16 then none
          else
            match parseIPv4Go s 0 0 [] with
            | none => none
            | some f4 => some (ip ++ f4, i + 4, ell)
        else
          let ip := ip ++ [acc / 256, acc % 256]
          let i := i + 2
          if rest = [] then some (ip, i, ell)
          else if startsWith rest [ ':' ] = false then none
          else if rest.length = 1 then none
          else
            let rest := rest.drop 1
            if startsWith rest [ ':' ] then
              if ell ≠ none then none
              else
                let rest := rest.drop 1
                if rest = [] then some (ip, i, some i)
                else parseIPv6Loop fuel rest ip i (some i)
            else parseIPv6Loop fuel rest ip i ell

/-- Ellipsis expansion at the end of netip parseIPv6. -/
def expandEllipsis (ip : List Nat) (i : Nat) (ell : Option Nat) : Option (List Nat) :=
  if i < 16 then
    match ell with
    | none => none
    | some e => some ((ip.take e) ++ List.replicate (16 - i) 0 ++ (ip.drop e))
  else
    match ell with
    | some _ => none
    | none => some ip

/-- net/netip parseIPv6: strip the zone at the first `%`, handle a
leading `::`, run the field loop and expand the ellipsis. -/
def parseIPv6 (sIn : List Char) : Option GoAddr :=
  let p := match indexOfChar '%' sIn with
    | none => some (sIn, ([] : List Char))
    | some i => if sIn.drop (i + 1) = [] then none else some (sIn.take i, sIn.drop (i + 1))
  match p with
  | none => none
  | some (s, zone) =>
    if startsWith s [ ':', ':' ] then
      let s' := s.drop 2
      if s' = [] then some ⟨false, 0, zone⟩
      else
        match parseIPv6Loop (s'.length + 1) s' [] 0 (some 0) with
        | none => none
        | some (ip, i, ell) =>
          match expandEllipsis ip i ell with
          | none => none
          | some bs => some ⟨false, bytesToNat bs, zone⟩
    else
      match parseIPv6Loop (s.length + 1) s [] 0 none with
      | none => none
      | some (ip, i, ell) =>
        match expandEllipsis ip i ell with
        | none => none
        | some bs => some ⟨false, bytesToNat bs, zone⟩

/-- net/netip ParseAddr: dispatch on the first of `.`, `:`, `%`. -/
def addrScan : List Char → Option Char
  | [] => none
  | c :: cs => if c = '.' ∨ c = ':' ∨ c = '%' then some c else addrScan cs

def goParseAddr (s : List Char) : Option GoAddr :=
  match addrScan s with
  | some '.' => parseIPv4 s
  | some ':' => parseIPv6 s
  | _ => none

/-- An address/prefix pair (net/netip.Prefix). -/
structure NetPfx where
  addr : GoAddr
  bits : Nat
deriving Repr, DecidableEq

/-- net/netip ParsePrefix: split at the last `/`, parse the address
(zones rejected), parse the bit count with Atoi and range-check it. -/
def goParsePfx (s : List Char) : Option NetPfx :=
  match lastIndexOfChar '/' s with
  | none => none
  | some i =>
    match goParseAddr (s.take i) with
    | none => none
    | some a =>
      if a.zone ≠ [] then none
      else
        match goAtoi (s.drop (i + 1)) with
        | none => none
        | some b =>
          let maxBits : Int := if a.is4 then 32 else 128
          if b < 0 ∨ b > maxBits then none else some ⟨a, b.toNat⟩

/-- conf parseIPCidr: ParsePrefix, falling back to ParseAddr with a
full-length prefix (Addr.BitLen). -/
def parseIPCidr (s : List Char) : Except ParseErr NetPfx :=
  match goParsePfx s with
  | some p => .ok p
  | none =>
    match goParseAddr s with
    | none => .error .invalidIP
    | some a => .ok ⟨a, if a.is4 then 32 else 128⟩

/-- net/netip Prefix.Contains: same family, no zone on the probed
address, and equality of the first `bits` bits. -/
def pfxContains (p : NetPfx) (a : GoAddr) : Bool :=
  if a.zone ≠ [] then false
  else if p.addr.is4 ≠ a.is4 then false
  else
    let w := if a.is4 then 32 else 128
    (a.val >>> (w - p.bits)) == (p.addr.val >>> (w - p.bits))

end WgTune

namespace WgTune

def b64Val (c : Char) : Option Nat :=
  if 'A' ≤ c && c ≤ 'Z' then some (c.toNat - 65)
  else if 'a' ≤ c && c ≤ 'z' then some (c.toNat - 97 + 26)
  else if '0' ≤ c && c ≤ '9' then some (c.toNat - 48 + 52)
  else if c = '+' then some 62
  else if c = '/' then some 63
  else none

/-- encoding/base64 StdEncoding decode of the newline-filtered input, one
four-character quantum at a time; `=` padding is allowed only at the end
of the final quantum and the length must be a multiple of four. -/
def b64DecodeGroups : List Char → Option (List Nat)
  | [] => some []
  | c1 :: c2 :: c3 :: c4 :: rest =>
    match b64Val c1, b64Val c2 with
    | some v1, some v2 =>
      if c3 = '=' then
        if c4 = '=' ∧ rest = [] then some [v1 * 4 + v2 / 16] else none
      else
        match b64Val c3 with
        | none => none
        | some v3 =>
          if c4 = '=' then
            if rest = [] then some [v1 * 4 + v2 / 16, (v2 % 16) * 16 + v3 / 4] else none
          else
            match b64Val c4 with
            | none => none
            | some v4 =>
              (b64DecodeGroups rest).map
                (fun tail => (v1 * 4 + v2 / 16) :: ((v2 % 16) * 16 + v3 / 4) :: ((v3 % 4) * 64 + v4) :: tail)
    | _, _ => none
  | _ => none

/-- encoding/base64 StdEncoding.DecodeString (newlines are skipped). -/
def base64StdDecode (s : List Char) : Option (List Nat) :=
  b64DecodeGroups (s.filter (fun c => !(c == '\n' || c == '\r')))

/-- conf.Key ([KeyLength]byte) as its list of byte values. -/
abbrev Key := List Nat

def keyLength : Nat := 32

def zeroKey : Key := List.replicate 32 0

/-- Modelled from the spec: `Key.IsZero` is declared outside src/ (only its
caller is here); the spec requires "a non-zero public key", so a key is
zero when every byte is zero. -/
def keyIsZero (k : Key) : Bool := k.all (· == 0)

/-- conf parseKeyBase64. -/
def parseKeyBase64 (s : List Char) : Except ParseErr Key :=
  match base64StdDecode s with
  | none => .error .invalidKey
  | some k => if k.length ≠ keyLength then .error .keyLength else .ok k

/-- conf parseMTU. -/
def parseMTU (s : List Char) : Except ParseErr Nat :=
  match goAtoi s with
  | none => .error .atoiFailed
  | some m => if m < 576 ∨ m > 65535 then .error .invalidMTU else .ok m.toNat

/-- conf parsePersistentKeepalive. -/
def parsePersistentKeepalive (s : List Char) : Except ParseErr Nat :=
  if s = str "off" then .ok 0
  else
    match goAtoi s with
    | none => .error .atoiFailed
    | some m => if m < 0 ∨ m > 65535 then .error .invalidKeepalive else .ok m.toNat

/-- conf parseTableOff. -/
def parseTableOff (s : List Char) : Except ParseErr Bool :=
  if s = str "off" then .ok true
  else if s = str "auto" ∨ s = str "main" then .ok false
  else
    match goParseUint32 s with
    | some _ => .ok false
    | none => .error .tableValue

/-- conf splitList: trim each comma-separated part, empty parts are the
"two commas in a row" error. -/
def splitListGo : List (List Char) → Except ParseErr (List (List Char))
  | [] => .ok []
  | p :: ps =>
    let t := trimSpace p
    if t.length = 0 then .error .twoCommas
    else (splitListGo ps).map (t :: ·)

def splitList (s : List Char) : Except ParseErr (List (List Char)) :=
  splitListGo (splitOnChar ',' s)

/-- Modelled from the spec: `TunnelNameIsValid` is declared outside src/;
the spec calls the name "a validated identifier, also used as file/service
name", modelled as one to 32 letters, digits or `_=+.-`. -/
def tunnelNameIsValid (name : List Char) : Bool :=
  decide (1 ≤ name.length) && decide (name.length ≤ 32) &&
  name.all (fun c => c.isAlphanum || c == '_' || c == '=' || c == '+' || c == '.' || c == '-')

structure Interface where
  privateKey : Key := zeroKey
  listenPort : Nat := 0
  mtu : Nat := 0
  addresses : List NetPfx := []
  dns : List GoAddr := []
  dnsSearch : List (List Char) := []
  preUp : List Char := []
  postUp : List Char := []
  preDown : List Char := []
  postDown : List Char := []
  tableOff : Bool := false
deriving Repr, DecidableEq

structure Peer where
  publicKey : Key := zeroKey
  presharedKey : Key := zeroKey
  allowedIPs : List NetPfx := []
  persistentKeepalive : Nat := 0
  endpoint : Endpoint := ⟨[], 0⟩
deriving Repr, DecidableEq

structure Config where
  name : List Char
  iface : Interface := {}
  peers : List Peer := []
deriving Repr, DecidableEq

inductive ConfSection where
  | interfaceSec
  | peerSec
  | noneSec
deriving Repr, DecidableEq

/-- The parser's loop state: the config built so far, the current section,
whether a PrivateKey was seen, and the pending peer. -/
structure PState where
  conf : Config
  sec : ConfSection
  sawPrivateKey : Bool
  peer : Option Peer
deriving Repr, DecidableEq

/-- conf (*Config).maybeAddPeer. -/
def maybeAddPeer (c : Config) (p : Option Peer) : Config :=
  match p with
  | none => c
  | some p => { c with peers := c.peers ++ [p] }

def withIface (st : PState) (f : Interface → Interface) : PState :=
  { st with conf := { st.conf with iface := f st.conf.iface } }

/-- In the peer section the pending peer is always present (the section is
only entered at a `[Peer]` header, which installs a fresh peer), so the
`Option.map` update touches exactly that peer. -/
def withPeer (st : PState) (f : Peer → Peer) : PState :=
  { st with peer := st.peer.map f }

/-- The body of the DNS branch of FromWgQuick (manager/uiprocess.go parser
part, lines 553-565): addresses go to DNS, everything else to DNSSearch. -/
def dnsDispatch (iface : Interface) : List (List Char) → Interface
  | [] => iface
  | a :: rest =>
    match goParseAddr a with
    | none => dnsDispatch { iface with dnsSearch := iface.dnsSearch ++ [a] } rest
    | some ip => dnsDispatch { iface with dns := iface.dns ++ [ip] } rest

/-- The Address/AllowedIPs list loop. -/
def parseCidrList : List (List Char) → Except ParseErr (List NetPfx)
  | [] => .ok []
  | a :: rest => do
    let p ← parseIPCidr a
    let ps ← parseCidrList rest
    return p :: ps

end WgTune

namespace WgTune

/-- The `[Interface]` key dispatch of FromWgQuick. -/
def processInterfaceKey (st : PState) (key val : List Char) : Except ParseErr PState :=
  if equalFold key (str "privatekey") then
    (parseKeyBase64 val).map (fun k =>
      { withIface st (fun i => { i with privateKey := k }) with sawPrivateKey := true })
  else if equalFold key (str "listenport") then
    (parsePort val).map (fun p => withIface st (fun i => { i with listenPort := p }))
  else if equalFold key (str "mtu") then
    (parseMTU val).map (fun m => withIface st (fun i => { i with mtu := m }))
  else if equalFold key (str "address") then
    match splitList val with
    | .error e => .error e
    | .ok addresses =>
      (parseCidrList addresses).map (fun as =>
        withIface st (fun i => { i with addresses := i.addresses ++ as }))
  else if equalFold key (str "dns") then
    match splitList val with
    | .error e => .error e
    | .ok addresses => .ok (withIface st (fun i => dnsDispatch i addresses))
  else if equalFold key (str "preup") then
    .ok (withIface st (fun i => { i with preUp := val }))
  else if equalFold key (str "postup") then
    .ok (withIface st (fun i => { i with postUp := val }))
  else if equalFold key (str "predown") then
    .ok (withIface st (fun i => { i with preDown := val }))
  else if equalFold key (str "postdown") then
    .ok (withIface st (fun i => { i with postDown := val }))
  else if equalFold key (str "table") then
    (parseTableOff val).map (fun t => withIface st (fun i => { i with tableOff := t }))
  else .error .unknownInterfaceKey

/-- The `[Peer]` key dispatch of FromWgQuick. -/
def processPeerKey (st : PState) (key val : List Char) : Except ParseErr PState :=
  if equalFold key (str "publickey") then
    (parseKeyBase64 val).map (fun k => withPeer st (fun p => { p with publicKey := k }))
  else if equalFold key (str "presharedkey") then
    (parseKeyBase64 val).map (fun k => withPeer st (fun p => { p with presharedKey := k }))
  else if equalFold key (str "allowedips") then
    match splitList val with
    | .error e => .error e
    | .ok addresses =>
      (parseCidrList addresses).map (fun as =>
        withPeer st (fun p => { p with allowedIPs := p.allowedIPs ++ as }))
  else if equalFold key (str "persistentkeepalive") then
    (parsePersistentKeepalive val).map (fun k =>
      withPeer st (fun p => { p with persistentKeepalive := k }))
  else if equalFold key (str "endpoint") then
    (parseEndpoint val).map (fun e => withPeer st (fun p => { p with endpoint := e }))
  else .error .unknownPeerKey

/-- One iteration of the FromWgQuick line loop: strip the comment, trim,
skip blanks, recognize section headers, then dispatch the key/value pair. -/
def processLine (st : PState) (rawLine : List Char) : Except ParseErr PState :=
  let line := trimSpace (cutAt '#' rawLine)
  if line.length = 0 then .ok st
  else if equalFold line (str "[interface]") then
    .ok { st with conf := maybeAddPeer st.conf st.peer, sec := .interfaceSec }
  else if equalFold line (str "[peer]") then
    .ok { st with conf := maybeAddPeer st.conf st.peer, peer := some {}, sec := .peerSec }
  else if st.sec = .noneSec then .error .lineOutsideSection
  else
    match indexOfChar '=' line with
    | none => .error .missingEquals
    | some equals =>
      let key := trimSpace (line.take equals)
      let val := trimSpace (line.drop (equals + 1))
      if val.length = 0 then .error .emptyValue
      else if st.sec = .interfaceSec then processInterfaceKey st key val
      else processPeerKey st key val

def parseLines : PState → List (List Char) → Except ParseErr PState
  | st, [] => .ok st
  | st, l :: ls =>
    match processLine st l with
    | .error e => .error e
    | .ok st' => parseLines st' ls

def anyPeerZeroKey (ps : List Peer) : Bool :=
  ps.any (fun p => keyIsZero p.publicKey)

/-- conf FromWgQuick (manager/uiprocess.go parser part, lines 481-635). -/
def fromWgQuick (s name : List Char) : Except ParseErr Config :=
  if tunnelNameIsValid name = false then .error .tunnelName
  else
    match parseLines ⟨{ name := name }, .noneSec, false, none⟩ (splitOnChar '\n' s) with
    | .error e => .error e
    | .ok st =>
      let conf := maybeAddPeer st.conf st.peer
      if st.sawPrivateKey = false then .error .noPrivateKey
      else if anyPeerZeroKey conf.peers then .error .peerNoPublicKey
      else .ok conf

end WgTune

namespace WgTune

/-- Windows socket errors relevant to conf resolveHostname. -/
inductive WinErr where
  | wsaTryAgain
  | wsaHostNotFound
  | otherErr (n : Nat)
deriving Repr, DecidableEq

/-- The outcome of one underlying GetAddrInfoW attempt as observed by the
select in resolveHostname: a result, an error, or the 10-second timeout. -/
inductive LookupOutcome where
  | found (ip : List Char)
  | failed (e : WinErr)
  | timedOut
deriving Repr, DecidableEq

/-- The host environment of the resolver: boot mode and the outcome of the
k-th lookup attempt. -/
structure ResolveEnv where
  startedAtBoot : Bool
  attempt : Nat → LookupOutcome

inductive ResolveEvent where
  | slept (secs : Nat)
  | lookedUp
deriving Repr, DecidableEq

/-- conf's local min (dnsresolver part of manager/uiprocess.go, line 307). -/
def goMin (a b : Nat) : Nat :=
  if a < b then a else b

/-- conf dnsCacheDuration, in seconds. -/
def dnsCacheDuration : Nat := 300

structure CacheEntry where
  ip : List Char
  timestamp : Nat
deriving Repr, DecidableEq

/-- The retry loop of resolveHostname: try `i` (for i > 0 after a sleep of
min(2^(i-1), 8) seconds), then dispatch on the attempt's outcome exactly as
the select does. -/
def resolveLoop (env : ResolveEnv) (maxTries : Nat) (i : Nat)
    (events : List ResolveEvent) : Except WinErr (List Char) × List ResolveEvent :=
  if _h : i ≥ maxTries then (.error .wsaHostNotFound, events)
  else
    let events := if i > 0 then events ++ [.slept (goMin (2 ^ (i - 1)) 8)] else events
    let events := events ++ [.lookedUp]
    match env.attempt i with
    | .found ip => (.ok ip, events)
    | .timedOut => resolveLoop env maxTries (i + 1) events
    | .failed e =>
      if e = .wsaTryAgain then resolveLoop env maxTries (i + 1) events
      else if e = .wsaHostNotFound ∧ env.startedAtBoot then resolveLoop env maxTries (i + 1) events
      else (.error e, events)
termination_by maxTries - i
decreasing_by all_goals omega

def lookupCache (cache : List (List Char × CacheEntry)) (name : List Char) : Option CacheEntry :=
  (cache.find? (fun e => e.1 == name)).map (·.2)

def cacheInsert (cache : List (List Char × CacheEntry)) (name : List Char)
    (e : CacheEntry) : List (List Char × CacheEntry) :=
  (name, e) :: cache.filter (fun p => !(p.1 == name))

/-- conf resolveHostname (dnsresolver part of manager/uiprocess.go, lines
176-236): cache lookup under the 5-minute freshness window, then up to
5 tries (10 at boot).  `now` is the clock at entry; the model keeps it
constant across the retries, which the claims do not depend on.  Returns
the result, the observable sleep/lookup events, and the updated cache. -/
def resolveHostname (cache : List (List Char × CacheEntry)) (now : Nat)
    (env : ResolveEnv) (name : List Char) :
    Except WinErr (List Char) × List ResolveEvent × List (List Char × CacheEntry) :=
  match lookupCache cache name with
  | some entry =>
    if now - entry.timestamp < dnsCacheDuration then (.ok entry.ip, [], cache)
    else
      let maxTries := if env.startedAtBoot then 10 else 5
      let (res, events) := resolveLoop env maxTries 0 []
      match res with
      | .ok ip => (.ok ip, events, cacheInsert cache name ⟨ip, now⟩)
      | .error e => (.error e, events, cache)
  | none =>
    let maxTries := if env.startedAtBoot then 10 else 5
    let (res, events) := resolveLoop env maxTries 0 []
    match res with
    | .ok ip => (.ok ip, events, cacheInsert cache name ⟨ip, now⟩)
    | .error e => (.error e, events, cache)

end WgTune

namespace WgTune

/-- The fallible host operations of tunnel runScriptCommand and the wait
outcome: `waitResult = none` models a process that has not finished within
the 30-second deadline. -/
structure ScriptEnv where
  dangerousScriptExecution : Bool
  comspecEnv : Option (List Char)
  systemDirOk : Bool
  openDevNullOk : Bool
  pipeOk : Bool
  startOk : Bool
  waitResult : Option (Except Unit Int)

inductive ScriptEvent where
  | spawned
deriving Repr, DecidableEq

inductive ScriptResult where
  | okRun
  | errSystemDir
  | errDevNull
  | errPipe
  | errStart
  | errWait
  | errTimeout
  | errCommandFailed
deriving Repr, DecidableEq

/-- tunnel runScriptCommand (tunnel/scriptrunner.go, lines 23-140).  The
`spawned` event records a successful os.StartProcess. -/
def runScriptCommand (command _iname : List Char) (env : ScriptEnv) :
    ScriptResult × List ScriptEvent :=
  if command.length = 0 then (.okRun, [])
  else if env.dangerousScriptExecution = false then (.okRun, [])
  else
    let comspecOk : Bool :=
      match env.comspecEnv with
      | some c => c.length != 0 || env.systemDirOk
      | none => env.systemDirOk
    if comspecOk = false then (.errSystemDir, [])
    else if env.openDevNullOk = false then (.errDevNull, [])
    else if env.pipeOk = false then (.errPipe, [])
    else if env.startOk = false then (.errStart, [])
    else
      match env.waitResult with
      | none => (.errTimeout, [.spawned])
      | some (.error _) => (.errWait, [.spawned])
      | some (.ok code) =>
        if code = 0 then (.okRun, [.spawned]) else (.errCommandFailed, [.spawned])

end WgTune

namespace WgTune

/-- The four cleanup actions of the teardown in tunnelService.Execute. -/
inductive CleanupTask where
  | preDownScript
  | watcherDestroy
  | adapterClose
  | postDownScript
deriving Repr, DecidableEq

/-- The observable events of the deferred teardown: the bounded join on the
cleanup WaitGroup, and the launch of each cleanup goroutine. -/
inductive TeardownEvent where
  | joinCleanup
  | launch (t : CleanupTask)
deriving Repr, DecidableEq

/-- Which guards of the deferred function hold for a given run. -/
structure TeardownScenario where
  logErrNil : Bool
  watcherPresent : Bool
  adapterPresent : Bool
  configPresent : Bool

/-- The deferred teardown of tunnelService.Execute (tunnel/service.go,
lines 51-133), in its source order: the select on the WaitGroup join with
the 30-second deadline comes first (lines 60-94), and the four cleanup
goroutines are only added to the WaitGroup afterwards (lines 96-130). -/
def teardownTrace (sc : TeardownScenario) : List TeardownEvent :=
  [.joinCleanup]
  ++ (if sc.logErrNil && sc.adapterPresent && sc.configPresent then [.launch .preDownScript] else [])
  ++ (if sc.watcherPresent then [.launch .watcherDestroy] else [])
  ++ (if sc.adapterPresent then [.launch .adapterClose] else [])
  ++ (if sc.logErrNil && sc.adapterPresent && sc.configPresent then [.launch .postDownScript] else [])

/-- The cleanup tasks the 30-second join actually waits for: those whose
goroutine was registered on the WaitGroup before the join ran. -/
def tasksJoined (evs : List TeardownEvent) : List CleanupTask :=
  (evs.takeWhile (fun e => e ≠ .joinCleanup)).filterMap
    (fun e => match e with | .launch t => some t | .joinCleanup => none)

/-- The cleanup tasks launched anywhere in the teardown. -/
def tasksLaunched (evs : List TeardownEvent) : List CleanupTask :=
  evs.filterMap (fun e => match e with | .launch t => some t | .joinCleanup => none)

/-- The deadlock path (stack dump, os.Exit(777)) fires exactly when a task
the join waits for has not completed after 30 seconds; `duration t = none`
is a cleanup task that never completes. -/
def deadlockExitFires (sc : TeardownScenario) (duration : CleanupTask → Option Nat) : Bool :=
  (tasksJoined (teardownTrace sc)).any (fun t =>
    match duration t with
    | none => true
    | some d => decide (d > 30))

end WgTune

namespace WgTune

/-- winipcfg MibIfRow2, restricted to the fields the sources read. -/
structure MibIfRow where
  operUp : Bool
  ifMtu : Nat
  ifAlias : List Char
deriving Repr, DecidableEq

/-- winipcfg MibIPInterfaceRow, restricted to the fields the sources read. -/
structure MibIpIfRow where
  ifMetric : Nat
  nlMtu : Nat
  forwardingEnabled : Bool
  weakHostSend : Bool
deriving Repr, DecidableEq

/-- One MibIPforwardRow2 of the routing table. -/
structure FwdRoute where
  dest : NetPfx
  ifLUID : Nat
  ifIndex : Nat
  metric : Nat
deriving Repr, DecidableEq

/-- The host networking state the tunnel package queries: the forward table
(with `tableOk = false` modelling a GetIPForwardTable2 failure), the
per-LUID Interface() and IPInterface() lookups (none modelling their
errors; repeated lookups return the same row, which is also why the
per-scan caches in the sources are transparent here), and whether
MibIPInterfaceRow.Set succeeds. -/
structure NetEnv where
  routes : List FwdRoute
  tableOk : Bool
  ifaceOf : Nat → Option MibIfRow
  ipIfaceOf : Nat → Option MibIpIfRow
  setOk : Bool

inductive AddrFamily where
  | inet
  | inet6
deriving Repr, DecidableEq

/-- The minimum-MTU initialisation of tunnel monitorMTU (mtumonitor.go,
lines 83-88). -/
def minMTUFor (family : AddrFamily) : Nat :=
  if family = .inet then 576 else 1280

/-- The composite metric `route.Metric + interface.Metric`, a uint32 sum. -/
def compositeMetric (r : FwdRoute) (row : MibIpIfRow) : Nat :=
  (r.metric + row.ifMetric) % 2 ^ 32

/-- The selection fold of tunnel findDefaultLUID (mtumonitor.go, lines
25-55): state (lowestMetric, chosenIndex, chosenLUID), strict improvement
only, metrics added modulo 2^32. -/
def chooseDefault (env : NetEnv) (eligible : List FwdRoute) : Nat × Nat × Nat :=
  eligible.foldl (fun st r =>
    match env.ifaceOf r.ifLUID with
    | none => st
    | some ifrow =>
      if ifrow.operUp = false then st
      else
        match env.ipIfaceOf r.ifLUID with
        | none => st
        | some iface =>
          let metric := compositeMetric r iface
          if metric < st.1 then (metric, r.ifIndex, r.ifLUID) else st)
    (2 ^ 32 - 1, 0, 0)

/-- tunnel findDefaultLUID (mtumonitor.go, lines 19-65): keep only
prefix-length-0 routes not on our interface, choose the lowest composite
metric, and update the (lastLUID, lastIndex) pair. -/
def findDefaultLUID (env : NetEnv) (ourLUID lastLUID lastIndex : Nat) : Nat × Nat :=
  let eligible := env.routes.filter (fun r => r.dest.bits == 0 && r.ifLUID != ourLUID)
  let c := chooseDefault env eligible
  if c.2.2 = lastLUID ∧ c.2.1 = lastIndex then (lastLUID, lastIndex)
  else (c.2.2, c.2.1)

structure MtuState where
  lastLUID : Nat
  lastIndex : Nat
  lastMTU : Nat
  lastUpdate : Nat
  minMTU : Nat
deriving Repr, DecidableEq

structure MtuResult where
  state : MtuState
  written : Option Nat
  errored : Bool
deriving Repr, DecidableEq

/-- The tunnel MTU computation of updateMTU (mtumonitor.go, lines 124-127):
`mtu - 80` in uint32 arithmetic, floored at the family minimum. -/
def computeTunnelMTU (minMTU mtu : Nat) : Nat :=
  let newMTU := (mtu + 2 ^ 32 - 80) % 2 ^ 32
  if newMTU < minMTU then minMTU else newMTU

/-- The MTU the default route's interface reports (mtumonitor.go, lines
106-115): 0 when no default interface is chosen, Interface() failures are
errors, and non-positive reported MTUs are ignored. -/
def defaultRouteMTU (env : NetEnv) (luid : Nat) : Except Unit Nat :=
  if luid ≠ 0 then
    match env.ifaceOf luid with
    | none => .error ()
    | some i => .ok (if i.ifMtu > 0 then i.ifMtu else 0)
  else .ok 0

/-- tunnel updateMTU (mtumonitor.go, lines 91-140), with `now` in
milliseconds: the 250 ms throttle, default-route discovery, and the
conditional write of the clamped MTU to our interface. -/
def updateMTU (env : NetEnv) (ourLUID : Nat) (st : MtuState) (now : Nat) : MtuResult :=
  if now - st.lastUpdate < 250 then ⟨st, none, false⟩
  else if env.tableOk = false then ⟨{ st with lastUpdate := now }, none, true⟩
  else
    let d := findDefaultLUID env ourLUID st.lastLUID st.lastIndex
    let st1 := { st with lastUpdate := now, lastLUID := d.1, lastIndex := d.2 }
    match defaultRouteMTU env d.1 with
    | .error _ => ⟨st1, none, true⟩
    | .ok mtu =>
      if mtu > 0 ∧ st1.lastMTU ≠ mtu then
        match env.ipIfaceOf ourLUID with
        | none => ⟨st1, none, true⟩
        | some ourIface =>
          let newMTU := computeTunnelMTU st1.minMTU mtu
          if ourIface.nlMtu ≠ newMTU then
            if env.setOk then ⟨{ st1 with lastMTU := mtu }, some newMTU, false⟩
            else ⟨st1, none, true⟩
          else ⟨{ st1 with lastMTU := mtu }, none, false⟩
      else ⟨st1, none, false⟩

end WgTune

namespace WgTune

/-- The per-endpoint scan state of tunnel pitfallWeakHostSend
(tunnel/pitfalls.go, lines 125-132). -/
structure EndpointRoute where
  addr : GoAddr
  rname : List Char
  lowestMetric : Nat
  highestCIDR : Nat
  weakHostSend : Bool
  finalIsOurs : Bool
deriving Repr, DecidableEq

/-- The endpoint pre-filter of pitfallWeakHostSend (lines 134-141): peers
whose endpoint host is a literal address of the scanned family. -/
def initEndpoints (family : AddrFamily) (conf : Config) : List EndpointRoute :=
  conf.peers.filterMap (fun peer =>
    match goParseAddr peer.endpoint.host with
    | none => none
    | some addr =>
      if (addr.is4 && family != .inet) || (!addr.is4 && family != .inet6) then none
      else some ⟨addr, [], 2 ^ 32 - 1, 0, false, false⟩)

/-- One route applied to one endpoint's scan state (pitfalls.go, lines
148-192): skip shorter prefixes, non-matching routes, down or unqueryable
interfaces; otherwise keep the state unless the route's prefix is longer,
or equally long with a composite metric not above the current best. -/
def pitStep (env : NetEnv) (ourLUID : Nat) (r : FwdRoute) (e : EndpointRoute) : EndpointRoute :=
  if r.dest.bits < e.highestCIDR then e
  else if pfxContains r.dest e.addr = false then e
  else
    match env.ifaceOf r.ifLUID with
    | none => e
    | some ifrow =>
      if ifrow.operUp = false then e
      else
        match env.ipIfaceOf r.ifLUID with
        | none => e
        | some ifacerow =>
          let metric := compositeMetric r ifacerow
          if r.dest.bits = e.highestCIDR ∧ metric > e.lowestMetric then e
          else
            { e with lowestMetric := metric, highestCIDR := r.dest.bits,
                     finalIsOurs := r.ifLUID = ourLUID,
                     rname := ifrow.ifAlias,
                     weakHostSend := ifacerow.forwardingEnabled || ifacerow.weakHostSend }

/-- The route-major double loop of pitfallWeakHostSend (lines 147-193). -/
def pitfallScan (env : NetEnv) (ourLUID : Nat) (es : List EndpointRoute) : List EndpointRoute :=
  env.routes.foldl (fun es r => es.map (pitStep env ourLUID r)) es

/-- tunnel pitfallWeakHostSend (pitfalls.go, lines 119-206), returning the
final per-endpoint states (a GetIPForwardTable2 failure returns early
with none). -/
def pitfallWeakHostSend (family : AddrFamily) (conf : Config) (ourLUID : Nat)
    (env : NetEnv) : List EndpointRoute :=
  if env.tableOk = false then []
  else pitfallScan env ourLUID (initEndpoints family conf)

/-- Whether the diagnostic warns about the interface named `n` (lines
195-205): some endpoint's winning route has Forwarding/WeakHostSend set
and is not ours. -/
def warnsAbout (family : AddrFamily) (conf : Config) (ourLUID : Nat)
    (env : NetEnv) (n : List Char) : Bool :=
  (pitfallWeakHostSend family conf ourLUID env).any
    (fun e => e.weakHostSend && !e.finalIsOurs && e.rname == n)

/-- The winning route's data, for the spec-worded selection. -/
structure Winner where
  wluid : Nat
  wbits : Nat
  wmetric : Nat
  wname : List Char
  wflags : Bool
deriving Repr, DecidableEq

/-- Spec-worded eligibility of a route for an endpoint address: matching,
with an up and queryable interface, and (when `excludeOurs`) not on the
tunnel's own interface. -/
def specEligible (env : NetEnv) (excludeOurs : Bool) (ourLUID : Nat)
    (a : GoAddr) (r : FwdRoute) : Option Winner :=
  if excludeOurs && r.ifLUID == ourLUID then none
  else if pfxContains r.dest a = false then none
  else
    match env.ifaceOf r.ifLUID with
    | none => none
    | some ifrow =>
      if ifrow.operUp = false then none
      else
        match env.ipIfaceOf r.ifLUID with
        | none => none
        | some ifacerow =>
          some ⟨r.ifLUID, r.dest.bits, compositeMetric r ifacerow,
                ifrow.ifAlias, ifacerow.forwardingEnabled || ifacerow.weakHostSend⟩

/-- Spec wording: "best matching route (longest matching prefix, ties
broken by lowest composite metric)"; on a full tie the later route in
table order wins. -/
def specBetter (w : Winner) (cur : Option Winner) : Bool :=
  match cur with
  | none => true
  | some c => w.wbits > c.wbits || (w.wbits == c.wbits && w.wmetric ≤ c.wmetric)

def specStep (env : NetEnv) (excludeOurs : Bool) (ourLUID : Nat) (a : GoAddr)
    (cur : Option Winner) (r : FwdRoute) : Option Winner :=
  match specEligible env excludeOurs ourLUID a r with
  | none => cur
  | some w => if specBetter w cur then some w else cur

/-- The spec-worded best matching route for an endpoint address. -/
def specBestRoute (env : NetEnv) (excludeOurs : Bool) (ourLUID : Nat)
    (a : GoAddr) : Option Winner :=
  env.routes.foldl (specStep env excludeOurs ourLUID a) none

/-- The spec-worded warning predicate, parameterised by whether the
tunnel's own interface is excluded from the selection (the claim's
wording) or competes in it (the code's behaviour). -/
def specWarnsAbout (excludeOurs : Bool) (family : AddrFamily) (conf : Config)
    (ourLUID : Nat) (env : NetEnv) (n : List Char) : Bool :=
  env.tableOk &&
  (initEndpoints family conf).any (fun e0 =>
    match specBestRoute env excludeOurs ourLUID e0.addr with
    | none => false
    | some w => w.wluid != ourLUID && w.wflags && w.wname == n)

end WgTune

namespace WgTune

/-- State of a text-level scan that mirrors the parser's own bookkeeping:
the section, whether an interface PrivateKey line was seen, whether a peer
is pending and declared a PublicKey, and whether some appended peer never
declared one. -/
structure ScanState where
  sec : ConfSection
  saw : Bool
  openDecl : Option Bool
  anyUndecl : Bool
deriving Repr, DecidableEq

/-- One line of the declaration scan; it follows processLine's guards
exactly but never fails, tracking only the key declarations. -/
def scanLine (sc : ScanState) (rawLine : List Char) : ScanState :=
  let line := trimSpace (cutAt '#' rawLine)
  if line.length = 0 then sc
  else if equalFold line (str "[interface]") then
    { sc with sec := .interfaceSec,
              anyUndecl := sc.anyUndecl || (sc.openDecl == some false) }
  else if equalFold line (str "[peer]") then
    { sc with sec := .peerSec, openDecl := some false,
              anyUndecl := sc.anyUndecl || (sc.openDecl == some false) }
  else if sc.sec = .noneSec then sc
  else
    match indexOfChar '=' line with
    | none => sc
    | some equals =>
      let key := trimSpace (line.take equals)
      let val := trimSpace (line.drop (equals + 1))
      if val.length = 0 then sc
      else if sc.sec = .interfaceSec then
        if equalFold key (str "privatekey") then { sc with saw := true } else sc
      else
        if equalFold key (str "publickey") then
          { sc with openDecl := sc.openDecl.map (fun _ => true) }
        else sc

def scanLines (sc : ScanState) (ls : List (List Char)) : ScanState :=
  ls.foldl scanLine sc

def initScan : ScanState := ⟨.noneSec, false, none, false⟩

/-- The text declares a PrivateKey in an `[Interface]` section. -/
def declaresPrivateKey (s : List Char) : Bool :=
  (scanLines initScan (splitOnChar '\n' s)).saw

/-- Some `[Peer]` block of the text declares no PublicKey. -/
def somePeerLacksPublicKey (s : List Char) : Bool :=
  let fin := scanLines initScan (splitOnChar '\n' s)
  fin.anyUndecl || (fin.openDecl == some false)

/-- The pending-peer halves of parser state and scan state agree, and an
undeclared pending peer still has the zero public key. -/
def PeerLink : Option Peer → Option Bool → Prop
  | none, none => True
  | some p, some d => d = false → keyIsZero p.publicKey = true
  | _, _ => False

/-- Correspondence between the parser state and the declaration scan. -/
def StMatch (st : PState) (sc : ScanState) : Prop :=
  sc.sec = st.sec ∧ sc.saw = st.sawPrivateKey ∧ PeerLink st.peer sc.openDecl ∧
  (sc.anyUndecl = true → ∃ p, p ∈ st.conf.peers ∧ keyIsZero p.publicKey = true)

end WgTune

namespace WgTune

/-- The warning state reached from a spec-side winner: the fields the code
scan carries for an endpoint whose best route so far is `cur`. -/
def toCodeState (ourLUID : Nat) (a : GoAddr) : Option Winner → EndpointRoute
  | none => ⟨a, [], 2 ^ 32 - 1, 0, false, false⟩
  | some w => ⟨a, w.wname, w.wmetric, w.wbits, w.wflags, decide (w.wluid = ourLUID)⟩

/-- The configuration of the C3 counterexample: one peer with the literal
IPv4 endpoint 10.0.0.1. -/
def confPit : Config :=
  { name := str "t", peers := [ { endpoint := ⟨str "10.0.0.1", 51820⟩ } ] }

/-- Routing environment of the C3 counterexample: our interface (LUID 1)
owns a /32 route to the endpoint; interface "eth" (LUID 2) owns the
default route and has forwarding enabled. -/
def envPit : NetEnv :=
  { routes :=
      [ ⟨⟨⟨true, 167772161, []⟩, 32⟩, 1, 11, 1⟩,
        ⟨⟨⟨true, 0, []⟩, 0⟩, 2, 12, 5⟩ ],
    tableOk := true,
    ifaceOf := fun l =>
      if l = 1 then some ⟨true, 1420, str "wg"⟩
      else if l = 2 then some ⟨true, 1500, str "eth"⟩
      else none,
    ipIfaceOf := fun l =>
      if l = 1 then some ⟨5, 1420, false, false⟩
      else if l = 2 then some ⟨10, 1500, true, false⟩
      else none,
    setOk := true }

/-- The C2 counterexample text: two `[Peer]` blocks separated by a repeated
`[Interface]` header. -/
def cfgC2 : List Char :=
  str "[Interface]\nPrivateKey = AwMDAwMDAwMDAwMDAwMDAwMDAwMDAwMDAwMDAwMDAwM=\n[Peer]\nPublicKey = AQEBAQEBAQEBAQEBAQEBAQEBAQEBAQEBAQEBAQEBAQE=\n[Interface]\n[Peer]\nPublicKey = AgICAgICAgICAgICAgICAgICAgICAgICAgICAgICAgI=\n"

def peerA : Peer := { publicKey := List.replicate 32 1 }

def peerB : Peer := { publicKey := List.replicate 32 2 }

/-- A config text whose `[Interface]` section declares no PrivateKey. -/
def cfgNoPriv : List Char := str "[Interface]\nListenPort = 51820\n"

/-- A config text with a peer that declares no PublicKey. -/
def cfgNoPub : List Char :=
  str "[Interface]\nPrivateKey = AwMDAwMDAwMDAwMDAwMDAwMDAwMDAwMDAwMDAwMDAwM=\n[Peer]\nPersistentKeepalive = 25\n"

end WgTune

namespace WgTune

theorem equalFold_excl {k a b : List Char} (ha : equalFold k a = true)
    (hab : a.map asciiLower ≠ b.map asciiLower) : equalFold k b = false := by
  by_cases hb : equalFold k b = true
  · exfalso
    simp only [equalFold, beq_iff_eq] at ha hb
    exact hab (ha ▸ hb)
  · simpa using hb

theorem compositeMetric_lt (r : FwdRoute) (row : MibIpIfRow) :
    compositeMetric r row < 2 ^ 32 :=
  Nat.mod_lt _ (by norm_num)

theorem specStep_skip (env : NetEnv) (ourLUID : Nat) (a : GoAddr) (r : FwdRoute)
    (w : Option Winner) (h : specEligible env false ourLUID a r = none) :
    specStep env false ourLUID a w r = w := by
  simp [specStep, h]

theorem pitStep_toCode (env : NetEnv) (ourLUID : Nat) (a : GoAddr) (r : FwdRoute)
    (cur : Option Winner) :
    pitStep env ourLUID r (toCodeState ourLUID a cur) =
      toCodeState ourLUID a (specStep env false ourLUID a cur r) := by
  cases hc : pfxContains r.dest a with
  | false =>
    rw [specStep_skip env ourLUID a r cur (by simp [specEligible, hc])]
    cases cur <;> simp [toCodeState, pitStep, hc]
  | true =>
    cases hif : env.ifaceOf r.ifLUID with
    | none =>
      rw [specStep_skip env ourLUID a r cur (by simp [specEligible, hc, hif])]
      cases cur <;> simp [toCodeState, pitStep, hc, hif]
    | some ifrow =>
      cases hup : ifrow.operUp with
      | false =>
        rw [specStep_skip env ourLUID a r cur (by simp [specEligible, hc, hif, hup])]
        cases cur <;> simp [toCodeState, pitStep, hc, hif, hup]
      | true =>
        cases hip : env.ipIfaceOf r.ifLUID with
        | none =>
          rw [specStep_skip env ourLUID a r cur (by simp [specEligible, hc, hif, hup, hip])]
          cases cur <;> simp [toCodeState, pitStep, hc, hif, hup, hip]
        | some ifacerow =>
          have hm := compositeMetric_lt r ifacerow
          cases cur with
          | none =>
            simp only [toCodeState, pitStep, specStep, specEligible, specBetter, hc, hif, hup, hip,
              Bool.false_and, Bool.true_eq_false, Bool.false_eq_true, if_false, if_true,
              Bool.or_eq_true, Bool.and_eq_true, decide_eq_true_eq, beq_iff_eq]
            split_ifs <;> first | rfl | (exfalso; omega)
          | some c =>
            simp only [toCodeState, pitStep, specStep, specEligible, specBetter, hc, hif, hup, hip,
              Bool.false_and, Bool.true_eq_false, Bool.false_eq_true, if_false, if_true,
              Bool.or_eq_true, Bool.and_eq_true, decide_eq_true_eq, beq_iff_eq]
            split_ifs <;> first | rfl | (exfalso; first | (casesm* _ ∨ _ <;> omega) | omega)

theorem pitfallScan_map (env : NetEnv) (ourLUID : Nat) :
    ∀ (rs : List FwdRoute) (es : List EndpointRoute),
      rs.foldl (fun es r => es.map (pitStep env ourLUID r)) es =
        es.map (fun e => rs.foldl (fun e r => pitStep env ourLUID r e) e) := by
  intro rs
  induction rs with
  | nil => intro es; simp
  | cons r rs ih =>
    intro es
    simp only [List.foldl_cons, ih, List.map_map]
    rfl

theorem foldRoutes_toCode (env : NetEnv) (ourLUID : Nat) (a : GoAddr) :
    ∀ (rs : List FwdRoute) (cur : Option Winner),
      rs.foldl (fun e r => pitStep env ourLUID r e) (toCodeState ourLUID a cur) =
        toCodeState ourLUID a (rs.foldl (specStep env false ourLUID a) cur) := by
  intro rs
  induction rs with
  | nil => intro cur; simp
  | cons r rs ih =>
    intro cur
    simp only [List.foldl_cons, pitStep_toCode, ih]

theorem initEndpoints_shape (family : AddrFamily) (conf : Config) (e : EndpointRoute)
    (h : e ∈ initEndpoints family conf) : e = toCodeState 0 e.addr none := by
  simp only [initEndpoints, List.mem_filterMap] at h
  obtain ⟨peer, _, hsome⟩ := h
  cases hpa : goParseAddr peer.endpoint.host with
  | none => simp [hpa] at hsome
  | some addr =>
    simp only [hpa] at hsome
    split at hsome
    · cases hsome
    · cases hsome
      rfl

theorem any_congr_mem {α : Type} (l : List α) (f g : α → Bool)
    (h : ∀ x ∈ l, f x = g x) : l.any f = l.any g := by
  induction l with
  | nil => rfl
  | cons x xs ih =>
    simp only [List.any_cons, h x (by simp), ih (fun y hy => h y (by simp [hy]))]

theorem except_map_ok {ε α β : Type} {f : α → β} {x : Except ε α} {y : β}
    (h : x.map f = .ok y) : ∃ v, x = .ok v ∧ y = f v := by
  cases x with
  | error e => simp [Except.map] at h
  | ok v =>
    refine ⟨v, rfl, ?_⟩
    simpa [Except.map] using h.symm

theorem processInterfaceKey_shape (st : PState) (key val : List Char) (st' : PState)
    (h : processInterfaceKey st key val = .ok st') :
    st'.conf.peers = st.conf.peers ∧ st'.peer = st.peer ∧ st'.sec = st.sec ∧
    st'.sawPrivateKey = (st.sawPrivateKey || equalFold key (str "privatekey")) := by
  by_cases h1 : equalFold key (str "privatekey") = true
  · unfold processInterfaceKey at h
    rw [if_pos h1] at h
    obtain ⟨k, hk, rfl⟩ := except_map_ok h
    exact ⟨rfl, rfl, rfl, by simp [withIface, h1]⟩
  · have h1' : equalFold key (str "privatekey") = false := by simpa using h1
    unfold processInterfaceKey at h
    rw [if_neg h1] at h
    split_ifs at h with h2 h3 h4 h5 h6 h7 h8 h9 h10
    all_goals
      first
      | (obtain ⟨v, hv, rfl⟩ := except_map_ok h
         exact ⟨rfl, rfl, rfl, by simp [withIface, h1']⟩)
      | (injection h with h
         subst h
         exact ⟨rfl, rfl, rfl, by simp [withIface, h1']⟩)
      | cases h
      | (cases hsp : splitList val with
         | error e =>
           rw [hsp] at h
           cases h
         | ok as =>
           rw [hsp] at h
           first
           | (obtain ⟨v, hv, rfl⟩ := except_map_ok h
              exact ⟨rfl, rfl, rfl, by simp [withIface, h1']⟩)
           | (injection h with h
              subst h
              exact ⟨rfl, rfl, rfl, by simp [withIface, h1']⟩))

theorem processPeerKey_pk (st : PState) (key val : List Char) (st' : PState)
    (h : processPeerKey st key val = .ok st')
    (hk : equalFold key (str "publickey") = true) :
    ∃ k, parseKeyBase64 val = .ok k ∧
      st' = withPeer st (fun p => { p with publicKey := k }) := by
  unfold processPeerKey at h
  rw [if_pos hk] at h
  obtain ⟨k, hkk, rfl⟩ := except_map_ok h
  exact ⟨k, hkk, rfl⟩

theorem processPeerKey_other (st : PState) (key val : List Char) (st' : PState)
    (h : processPeerKey st key val = .ok st')
    (hk : ¬(equalFold key (str "publickey") = true)) :
    st'.conf = st.conf ∧ st'.sec = st.sec ∧ st'.sawPrivateKey = st.sawPrivateKey ∧
    ((st.peer = none ∧ st'.peer = none) ∨
     ∃ p q, st.peer = some p ∧ st'.peer = some q ∧ q.publicKey = p.publicKey) := by
  have hpres : ∀ (f : Peer → Peer), (∀ p, (f p).publicKey = p.publicKey) →
      ((st.peer = none ∧ (withPeer st f).peer = none) ∨
       ∃ p q, st.peer = some p ∧ (withPeer st f).peer = some q ∧
         q.publicKey = p.publicKey) := by
    intro f hf
    cases hp : st.peer with
    | none => exact Or.inl ⟨rfl, by simp [withPeer, hp]⟩
    | some p => exact Or.inr ⟨p, f p, rfl, by simp [withPeer, hp], hf p⟩
  unfold processPeerKey at h
  rw [if_neg hk] at h
  split_ifs at h with h2 h3 h4 h5
  all_goals
    first
    | (obtain ⟨v, hv, rfl⟩ := except_map_ok h
       exact ⟨rfl, rfl, rfl, hpres _ (fun p => rfl)⟩)
    | cases h
    | (cases hsp : splitList val with
       | error e =>
         rw [hsp] at h
         cases h
       | ok as =>
         rw [hsp] at h
         obtain ⟨v, hv, rfl⟩ := except_map_ok h
         exact ⟨rfl, rfl, rfl, hpres _ (fun p => rfl)⟩)

theorem mem_maybeAddPeer (c : Config) (po : Option Peer) (p : Peer)
    (h : p ∈ c.peers) : p ∈ (maybeAddPeer c po).peers := by
  cases po with
  | none => simpa [maybeAddPeer] using h
  | some q =>
    simp only [maybeAddPeer, List.mem_append]
    exact Or.inl h

theorem pending_mem_maybeAddPeer (c : Config) (p : Peer) :
    p ∈ (maybeAddPeer c (some p)).peers := by
  simp [maybeAddPeer]

theorem processLine_sim (st : PState) (sc : ScanState) (l : List Char) (st' : PState)
    (hm : StMatch st sc) (h : processLine st l = .ok st') :
    StMatch st' (scanLine sc l) := by
  obtain ⟨hsec, hsaw, hlink, hund⟩ := hm
  simp only [processLine] at h
  simp only [scanLine]
  by_cases h0 : (trimSpace (cutAt '#' l)).length = 0
  · rw [if_pos h0] at h ⊢
    injection h with h
    subst h
    exact ⟨hsec, hsaw, hlink, hund⟩
  · rw [if_neg h0] at h ⊢
    by_cases hInt : equalFold (trimSpace (cutAt '#' l)) (str "[interface]") = true
    · rw [if_pos hInt] at h ⊢
      injection h with h
      subst h
      refine ⟨rfl, hsaw, hlink, ?_⟩
      intro hA
      rcases Bool.or_eq_true_iff.mp hA with hA | hA
      · obtain ⟨p, hp, hz⟩ := hund hA
        exact ⟨p, mem_maybeAddPeer _ _ _ hp, hz⟩
      · have hod : sc.openDecl = some false := by simpa using hA
        cases hpeer : st.peer with
        | none => rw [hpeer, hod] at hlink; cases hlink
        | some p =>
          rw [hpeer, hod] at hlink
          exact ⟨p, pending_mem_maybeAddPeer st.conf p, hlink rfl⟩
    · rw [if_neg hInt] at h ⊢
      by_cases hPeer : equalFold (trimSpace (cutAt '#' l)) (str "[peer]") = true
      · rw [if_pos hPeer] at h ⊢
        injection h with h
        subst h
        refine ⟨rfl, hsaw, ?_, ?_⟩
        · intro _
          decide
        · intro hA
          rcases Bool.or_eq_true_iff.mp hA with hA | hA
          · obtain ⟨p, hp, hz⟩ := hund hA
            exact ⟨p, mem_maybeAddPeer _ _ _ hp, hz⟩
          · have hod : sc.openDecl = some false := by simpa using hA
            cases hpeer : st.peer with
            | none => rw [hpeer, hod] at hlink; cases hlink
            | some p =>
              rw [hpeer, hod] at hlink
              exact ⟨p, pending_mem_maybeAddPeer st.conf p, hlink rfl⟩
      · rw [if_neg hPeer] at h ⊢
        rw [hsec]
        by_cases hN : st.sec = .noneSec
        · rw [if_pos hN] at h
          cases h
        · rw [if_neg hN] at h ⊢
          cases he : indexOfChar '=' (trimSpace (cutAt '#' l)) with
          | none =>
            rw [he] at h
            cases h
          | some equals =>
            rw [he] at h
            dsimp only at h ⊢
            by_cases hv : (trimSpace ((trimSpace (cutAt '#' l)).drop (equals + 1))).length = 0
            · rw [if_pos hv] at h
              cases h
            · rw [if_neg hv] at h ⊢
              by_cases hI : st.sec = .interfaceSec
              · rw [if_pos hI] at h ⊢
                obtain ⟨hpeers, hpeer, hsec', hsaw'⟩ := processInterfaceKey_shape _ _ _ _ h
                by_cases hpk :
                    equalFold (trimSpace ((trimSpace (cutAt '#' l)).take equals)) (str "privatekey") = true
                · rw [if_pos hpk]
                  refine ⟨hsec'.symm, by simp [hsaw', hpk], hpeer ▸ hlink, ?_⟩
                  intro hA
                  obtain ⟨p, hp, hz⟩ := hund hA
                  exact ⟨p, hpeers ▸ hp, hz⟩
                · rw [if_neg hpk]
                  have hpk' : equalFold (trimSpace ((trimSpace (cutAt '#' l)).take equals))
                      (str "privatekey") = false := by simpa using hpk
                  refine ⟨hsec.trans hsec'.symm, by simp [hsaw', hpk', hsaw], hpeer ▸ hlink, ?_⟩
                  intro hA
                  obtain ⟨p, hp, hz⟩ := hund hA
                  exact ⟨p, hpeers ▸ hp, hz⟩
              · rw [if_neg hI] at h ⊢
                by_cases hpk :
                    equalFold (trimSpace ((trimSpace (cutAt '#' l)).take equals)) (str "publickey") = true
                · rw [if_pos hpk]
                  obtain ⟨k, hkk, rfl⟩ := processPeerKey_pk _ _ _ _ h hpk
                  refine ⟨rfl, hsaw, ?_, ?_⟩
                  · cases hpeer : st.peer with
                    | none =>
                      have hod : sc.openDecl = none := by
                        rw [hpeer] at hlink
                        cases hod : sc.openDecl with
                        | none => rfl
                        | some d => rw [hod] at hlink; cases hlink
                      simp [withPeer, hpeer, hod, PeerLink]
                    | some p =>
                      have hod : ∃ d, sc.openDecl = some d := by
                        rw [hpeer] at hlink
                        cases hod : sc.openDecl with
                        | none => rw [hod] at hlink; cases hlink
                        | some d => exact ⟨d, rfl⟩
                      obtain ⟨d, hd⟩ := hod
                      simp [withPeer, hpeer, hd, PeerLink]
                  · exact hund
                · rw [if_neg hpk]
                  obtain ⟨hconf, hsec', hsaw', hpp⟩ := processPeerKey_other _ _ _ _ h hpk
                  refine ⟨hsec'.symm ▸ hsec, hsaw'.symm ▸ hsaw, ?_, ?_⟩
                  · rcases hpp with ⟨hn, hn'⟩ | ⟨p, q, hp, hq, hpq⟩
                    · rw [hn'] 
                      rw [hn] at hlink
                      cases hod : sc.openDecl with
                      | none => exact trivial
                      | some d => rw [hod] at hlink; cases hlink
                    · rw [hq]
                      rw [hp] at hlink
                      cases hod : sc.openDecl with
                      | none => rw [hod] at hlink; cases hlink
                      | some d =>
                        rw [hod] at hlink
                        intro hd
                        rw [hpq]
                        exact hlink hd
                  · intro hA
                    obtain ⟨p, hp, hz⟩ := hund hA
                    refine ⟨p, ?_, hz⟩
                    show p ∈ st'.conf.peers
                    rw [hconf]
                    exact hp

theorem parseLines_sim : ∀ (ls : List (List Char)) (st : PState) (sc : ScanState) (st' : PState),
    StMatch st sc → parseLines st ls = .ok st' → StMatch st' (scanLines sc ls) := by
  intro ls
  induction ls with
  | nil =>
    intro st sc st' hm h
    injection h with h
    subst h
    exact hm
  | cons l ls ih =>
    intro st sc st' hm h
    simp only [parseLines] at h
    cases hp : processLine st l with
    | error e => rw [hp] at h; cases h
    | ok st1 =>
      rw [hp] at h
      exact ih st1 (scanLine sc l) st' (processLine_sim _ _ _ _ hm hp) h

theorem fromWgQuick_ok_scan (s n : List Char) (c : Config) (h : fromWgQuick s n = .ok c) :
    declaresPrivateKey s = true ∧ somePeerLacksPublicKey s = false := by
  unfold fromWgQuick at h
  by_cases hn : tunnelNameIsValid n = false
  · rw [if_pos hn] at h
    cases h
  · rw [if_neg hn] at h
    cases hp : parseLines ⟨{ name := n }, .noneSec, false, none⟩ (splitOnChar '\n' s) with
    | error e => rw [hp] at h; cases h
    | ok st =>
      rw [hp] at h
      dsimp only at h
      have hm : StMatch st (scanLines initScan (splitOnChar '\n' s)) := by
        refine parseLines_sim _ _ _ _ ⟨rfl, rfl, ?_, ?_⟩ hp
        · show PeerLink none none
          trivial
        · intro hA
          cases hA
      obtain ⟨hsec, hsaw, hlink, hund⟩ := hm
      by_cases hs : st.sawPrivateKey = false
      · rw [if_pos hs] at h
        cases h
      · rw [if_neg hs] at h
        by_cases hz : anyPeerZeroKey (maybeAddPeer st.conf st.peer).peers = true
        · rw [if_pos hz] at h
          cases h
        · constructor
          · unfold declaresPrivateKey
            rw [hsaw]
            exact eq_true_of_ne_false hs
          · unfold somePeerLacksPublicKey
            rw [Bool.or_eq_false_iff]
            constructor
            · cases hA : (scanLines initScan (splitOnChar '\n' s)).anyUndecl with
              | false => rfl
              | true =>
                exfalso
                obtain ⟨p, hpmem, hpz⟩ := hund hA
                exact hz (List.any_eq_true.mpr ⟨p, mem_maybeAddPeer _ _ _ hpmem, hpz⟩)
            · cases hod : (scanLines initScan (splitOnChar '\n' s)).openDecl with
              | none => rfl
              | some d =>
                cases d with
                | true => simp
                | false =>
                  exfalso
                  rw [hod] at hlink
                  cases hpeer : st.peer with
                  | none => rw [hpeer] at hlink; cases hlink
                  | some p =>
                    rw [hpeer] at hlink
                    refine hz (List.any_eq_true.mpr ⟨p, ?_, hlink rfl⟩)
                    rw [hpeer]
                    exact pending_mem_maybeAddPeer _ _

end WgTune

namespace WgTune

/-- C1: the claim states that teardown launches its cleanup actions as
independent tasks and joins them under the 30-second deadline, with the
stack-dump/os.Exit(777) path as backstop.  In the code the join on the
cleanup WaitGroup runs before any cleanup goroutine is registered: the
join waits for nothing, all four tasks are launched after it, and the
deadlock path can never fire — a cleanup task that never completes is
simply left unjoined. -/
theorem c1_teardown_join_before_launch :
    (∀ sc : TeardownScenario, tasksJoined (teardownTrace sc) = []) ∧
    tasksLaunched (teardownTrace ⟨true, true, true, true⟩) =
      [.preDownScript, .watcherDestroy, .adapterClose, .postDownScript] ∧
    ∀ (sc : TeardownScenario) (duration : CleanupTask → Option Nat),
      deadlockExitFires sc duration = false := by
  refine ⟨fun sc => ?_, rfl, fun sc duration => ?_⟩
  · simp [tasksJoined, teardownTrace]
  · simp [deadlockExitFires, tasksJoined, teardownTrace]

/-- C2 counterexample: the claim says a text with exactly two `[Peer]`
blocks between repeated `[Interface]` headers parses to a 2-element peer
sequence; `cfgC2` parses to 3 peers, because the peer pending at the
repeated `[Interface]` header is appended there and again at the next
`[Peer]` header. -/
theorem c2_counterexample :
    (fromWgQuick cfgC2 (str "test")).map (fun c => c.peers.length) = Except.ok 3 ∧
    (3 : Nat) ≠ 2 :=
  ⟨rfl, by decide⟩

/-- C2 amended: each `[Peer]` header appends the pending peer and starts a
fresh one, but a repeated `[Interface]` header also appends the pending
peer without clearing it, so that peer is appended again at the next
section header (or end of text).  The two-`[Peer]`-blocks example hence
parses to the 3-element peer sequence [A, A, B] in source order. -/
theorem c2_amended :
    fromWgQuick cfgC2 (str "test") =
      .ok { name := str "test", iface := { privateKey := List.replicate 32 3 },
            peers := [peerA, peerA, peerB] } := rfl

/-- C3 counterexample: with the tunnel's own /32 route to the endpoint and
a forwarding-enabled default route on "eth", the diagnostic (which lets
the tunnel's own routes compete) does not warn about "eth", while the
claim's selection, which excludes the tunnel's own interface, would. -/
theorem c3_counterexample :
    warnsAbout .inet confPit 1 envPit (str "eth") = false ∧
    specWarnsAbout true .inet confPit 1 envPit (str "eth") = true :=
  ⟨rfl, rfl⟩

/-- C3 amended: the diagnostic selects each literal-endpoint's best
matching route by longest matching prefix, ties broken by lowest composite
metric (route metric plus interface metric, a full tie going to the later
route in table order), with the tunnel's own interface competing in the
selection rather than being excluded; it warns about an interface exactly
when the winning route's interface is not the tunnel's own and has
IP-forwarding or weak-host-send enabled. -/
theorem c3_amended (family : AddrFamily) (conf : Config) (ourLUID : Nat)
    (env : NetEnv) (n : List Char) :
    warnsAbout family conf ourLUID env n = specWarnsAbout false family conf ourLUID env n := by
  unfold warnsAbout specWarnsAbout pitfallWeakHostSend
  cases ht : env.tableOk with
  | false => simp
  | true =>
    simp only [Bool.true_eq_false, if_false, Bool.true_and]
    unfold pitfallScan
    rw [pitfallScan_map]
    rw [List.any_map]
    apply any_congr_mem
    intro e0 he0
    have hshape := initEndpoints_shape family conf e0 he0
    have hshape' : e0 = toCodeState ourLUID e0.addr none := by
      rw [hshape]; rfl
    conv_lhs => rw [hshape']
    rw [Function.comp_apply, foldRoutes_toCode]
    unfold specBestRoute
    cases hw : env.routes.foldl (specStep env false ourLUID e0.addr) none with
    | none => simp [toCodeState]
    | some w =>
      simp only [toCodeState]
      by_cases hlu : w.wluid = ourLUID <;>
        cases hf : w.wflags <;> simp [hlu, hf, bne]

/-- C4: with a fresh cache miss, non-boot mode, and an underlying lookup
that always fails with WSATRY_AGAIN, resolveHostname performs exactly 5
lookup attempts, try i > 0 preceded by a sleep of min(2^(i-1), 8) seconds
(1, 2, 4, 8), and returns WSAHOST_NOT_FOUND. -/
theorem c4_resolveHostname_retries (cache : List (List Char × CacheEntry)) (now : Nat)
    (env : ResolveEnv) (name : List Char)
    (hmiss : ∀ e, lookupCache cache name = some e → ¬(now - e.timestamp < dnsCacheDuration))
    (hboot : env.startedAtBoot = false)
    (hfail : ∀ k, env.attempt k = .failed .wsaTryAgain) :
    resolveHostname cache now env name =
      (.error .wsaHostNotFound,
       [.lookedUp, .slept 1, .lookedUp, .slept 2, .lookedUp, .slept 4, .lookedUp,
        .slept 8, .lookedUp],
       cache) := by
  have hloop : resolveLoop env 5 0 [] =
      (.error .wsaHostNotFound,
       [.lookedUp, .slept 1, .lookedUp, .slept 2, .lookedUp, .slept 4, .lookedUp,
        .slept 8, .lookedUp]) := by
    simp [resolveLoop, hfail, goMin]
  cases hc : lookupCache cache name with
  | none => simp [resolveHostname, hc, hboot, hloop]
  | some e =>
    have hstale := hmiss e hc
    simp [resolveHostname, hc, hstale, hboot, hloop]

/-- C4 witness: the empty cache, a lookup that always says "try again",
non-boot mode. -/
theorem c4_resolveHostname_retries_witness :
    resolveHostname [] 0 ⟨false, fun _ => .failed .wsaTryAgain⟩ (str "h") =
      (.error .wsaHostNotFound,
       [.lookedUp, .slept 1, .lookedUp, .slept 2, .lookedUp, .slept 4, .lookedUp,
        .slept 8, .lookedUp],
       []) :=
  c4_resolveHostname_retries [] 0 ⟨false, fun _ => .failed .wsaTryAgain⟩ (str "h")
    (by intro e he; simp [lookupCache] at he) rfl (fun _ => rfl)

/-- C5: with the DangerousScriptExecution gate disabled, runScriptCommand
returns success without spawning a subprocess, whatever the non-empty
command says. -/
theorem c5_script_gate (command nm : List Char) (env : ScriptEnv)
    (hcmd : command.length ≠ 0) (hgate : env.dangerousScriptExecution = false) :
    runScriptCommand command nm env = (.okRun, []) := by
  simp [runScriptCommand, hcmd, hgate]

/-- C5 witness: a concrete command under a disabled gate. -/
theorem c5_script_gate_witness :
    runScriptCommand (str "del C:\\Windows") (str "wg0")
      ⟨false, none, true, true, true, true, some (.ok 0)⟩ = (.okRun, []) :=
  c5_script_gate (str "del C:\\Windows") (str "wg0")
    ⟨false, none, true, true, true, true, some (.ok 0)⟩ (by decide) rfl

/-- C9: a cache entry younger than 5 minutes is returned immediately: no
lookup attempt, no sleep, cache unchanged. -/
theorem c9_cache_hit (cache : List (List Char × CacheEntry)) (now : Nat)
    (env : ResolveEnv) (name : List Char) (entry : CacheEntry)
    (hfound : lookupCache cache name = some entry)
    (hfresh : now - entry.timestamp < dnsCacheDuration) :
    resolveHostname cache now env name = (.ok entry.ip, [], cache) := by
  simp [resolveHostname, hfound, hfresh]

/-- C9 witness: a 100-second-old entry for "h". -/
theorem c9_cache_hit_witness :
    resolveHostname [(str "h", ⟨str "10.0.0.9", 100⟩)] 200
      ⟨false, fun _ => .failed .wsaTryAgain⟩ (str "h") =
      (.ok (str "10.0.0.9"), [], [(str "h", ⟨str "10.0.0.9", 100⟩)]) :=
  c9_cache_hit [(str "h", ⟨str "10.0.0.9", 100⟩)] 200
    ⟨false, fun _ => .failed .wsaTryAgain⟩ (str "h") ⟨str "10.0.0.9", 100⟩ rfl (by decide)

end WgTune

namespace WgTune

/-- C6: a text whose `[Interface]` section declares no PrivateKey, and a
text in which some `[Peer]` block declares no PublicKey, are both rejected
with a parse error and never yield a Config (the embedded parser is a
total function into `Except`, so no panic and no partial Config exist). -/
theorem c6_missing_keys_rejected :
    (∀ s n : List Char, declaresPrivateKey s = false →
      ∃ e, fromWgQuick s n = .error e) ∧
    (∀ s n : List Char, somePeerLacksPublicKey s = true →
      ∃ e, fromWgQuick s n = .error e) := by
  constructor
  · intro s n hdecl
    cases hq : fromWgQuick s n with
    | error e => exact ⟨e, rfl⟩
    | ok c =>
      have := (fromWgQuick_ok_scan s n c hq).1
      rw [hdecl] at this
      cases this
  · intro s n hlack
    cases hq : fromWgQuick s n with
    | error e => exact ⟨e, rfl⟩
    | ok c =>
      have := (fromWgQuick_ok_scan s n c hq).2
      rw [hlack] at this
      cases this

/-- C6 witness: a config with no PrivateKey line and a config whose peer
block has no PublicKey line. -/
theorem c6_missing_keys_rejected_witness :
    (∃ e, fromWgQuick cfgNoPriv (str "test") = .error e) ∧
    (∃ e, fromWgQuick cfgNoPub (str "test") = .error e) :=
  ⟨c6_missing_keys_rejected.1 cfgNoPriv (str "test") rfl,
   c6_missing_keys_rejected.2 cfgNoPub (str "test") rfl⟩

/-- C7: `"10.0.0.1:51820"` parses to host 10.0.0.1 port 51820,
`"[2001:db8::1]:51820"` to host 2001:db8::1 port 51820, the unbracketed
`"2001:db8::1:51820"` fails; and in general, without brackets the last
colon is the port separator and a host part that still contains a colon is
a parse error. -/
theorem c7_endpoint_parsing :
    parseEndpoint (str "10.0.0.1:51820") = .ok ⟨str "10.0.0.1", 51820⟩ ∧
    parseEndpoint (str "[2001:db8::1]:51820") = .ok ⟨str "2001:db8::1", 51820⟩ ∧
    parseEndpoint (str "2001:db8::1:51820") = .error .unbracketedIPv6 ∧
    ∀ (s : List Char) (i : Nat), startsWith s [ '[' ] = false →
      lastIndexOfChar ':' s = some i →
      (containsChar ':' (s.take i) = true → parseEndpoint s = .error .unbracketedIPv6) ∧
      (∀ ep, parseEndpoint s = .ok ep →
        ep.host = s.take i ∧ parsePort (s.drop (i + 1)) = .ok ep.port) := by
  refine ⟨rfl, rfl, rfl, fun s i h1 h2 => ⟨?_, ?_⟩⟩
  · intro hc
    simp [parseEndpoint, endpointSplit, h1, h2, hc]
  · intro ep hok
    by_cases hc : containsChar ':' (s.take i) = true
    · simp [parseEndpoint, endpointSplit, h1, h2, hc] at hok
    · cases hp : parsePort (s.drop (i + 1)) with
      | error e =>
        simp [parseEndpoint, endpointSplit, h1, h2, hc, hp] at hok
        split at hok
        · cases hok
        · cases hok
      | ok p =>
        simp [parseEndpoint, endpointSplit, h1, h2, hc, hp] at hok
        split at hok
        · cases hok
        · injection hok with h
          subst h
          exact ⟨rfl, rfl⟩

/-- C7 witness: the universal part applied to "a:1:2" (last colon at index
3, host "a:1" still contains a colon). -/
theorem c7_endpoint_parsing_witness :
    parseEndpoint (str "a:1:2") = .error .unbracketedIPv6 :=
  (c7_endpoint_parsing.2.2.2 (str "a:1:2") 3 (by decide) (by decide)).1 (by decide)

/-- C8: the tunnel MTU is the default-route interface MTU minus 80 floored
at the family minimum — 1500 gives 1420 and 600 clamps to 576 for IPv4
(the IPv6 floor being 1280) — and updateMTU writes the computed value to
the adapter exactly when it differs from the adapter's current MTU. -/
theorem c8_mtu_computation :
    computeTunnelMTU (minMTUFor .inet) 1500 = 1420 ∧
    computeTunnelMTU (minMTUFor .inet) 600 = 576 ∧
    computeTunnelMTU (minMTUFor .inet6) 600 = 1280 ∧
    ∀ (env : NetEnv) (ourLUID : Nat) (st : MtuState) (now mtu : Nat)
      (ourIface : MibIpIfRow),
      ¬(now - st.lastUpdate < 250) → env.tableOk = true →
      defaultRouteMTU env (findDefaultLUID env ourLUID st.lastLUID st.lastIndex).1 = .ok mtu →
      mtu > 0 → st.lastMTU ≠ mtu → env.ipIfaceOf ourLUID = some ourIface →
      env.setOk = true →
      (updateMTU env ourLUID st now).written =
        (if ourIface.nlMtu ≠ computeTunnelMTU st.minMTU mtu
         then some (computeTunnelMTU st.minMTU mtu) else none) := by
  refine ⟨by decide, by decide, by decide, ?_⟩
  intro env ourLUID st now mtu ourIface h1 h2 hm hp hl hif hset
  simp only [updateMTU, if_neg h1, h2]
  simp only [hm]
  simp [hp, hl, hif, hset]
  by_cases hne : ourIface.nlMtu = computeTunnelMTU st.minMTU mtu <;> simp [hne]

/-- The concrete routing environment of the C8 witness: one default route
on interface 2 (MTU 1500), our interface 1 currently at MTU 1400. -/
def envMtu : NetEnv :=
  { routes := [ ⟨⟨⟨true, 0, []⟩, 0⟩, 2, 7, 1⟩ ],
    tableOk := true,
    ifaceOf := fun l =>
      if l = 2 then some ⟨true, 1500, str "eth"⟩
      else if l = 1 then some ⟨true, 1420, str "wg"⟩
      else none,
    ipIfaceOf := fun l =>
      if l = 2 then some ⟨10, 1500, false, false⟩
      else if l = 1 then some ⟨5, 1400, false, false⟩
      else none,
    setOk := true }

/-- C8 witness: the default-route MTU 1500 yields a write of 1420. -/
theorem c8_mtu_computation_witness :
    (updateMTU envMtu 1 ⟨0, 0, 0, 0, 576⟩ 1000).written = some 1420 := by
  have h := c8_mtu_computation.2.2.2 envMtu 1 ⟨0, 0, 0, 0, 576⟩ 1000 1500
    ⟨5, 1400, false, false⟩ (by decide) rfl rfl (by decide) (by decide) rfl rfl
  rw [h]
  rfl

/-- C10: every comma-separated DNS element that parses as a literal IP
address is appended to the DNS server list and every element that does not
is appended to the DNS search-domain list, both in source order; the DNS
branch itself never produces a parse error once the comma list splits. -/
theorem c10_dns_dispatch :
    (∀ (iface : Interface) (elems : List (List Char)),
      (dnsDispatch iface elems).dns = iface.dns ++ elems.filterMap goParseAddr ∧
      (dnsDispatch iface elems).dnsSearch =
        iface.dnsSearch ++ elems.filter (fun a => (goParseAddr a).isNone)) ∧
    (∀ (st : PState) (key val : List Char) (elems : List (List Char)),
      equalFold key (str "dns") = true → splitList val = .ok elems →
      processInterfaceKey st key val = .ok (withIface st (fun i => dnsDispatch i elems))) := by
  constructor
  · intro iface elems
    induction elems generalizing iface with
    | nil => simp [dnsDispatch]
    | cons a rest ih =>
      cases hpa : goParseAddr a with
      | none => simp [dnsDispatch, hpa, ih]
      | some ip => simp [dnsDispatch, hpa, ih]
  · intro st key val elems hk hsplit
    have h1 : equalFold key (str "privatekey") = false := equalFold_excl hk (by decide)
    have h2 : equalFold key (str "listenport") = false := equalFold_excl hk (by decide)
    have h3 : equalFold key (str "mtu") = false := equalFold_excl hk (by decide)
    have h4 : equalFold key (str "address") = false := equalFold_excl hk (by decide)
    simp [processInterfaceKey, h1, h2, h3, h4, hk, hsplit]

/-- C10 witness: the line `DNS = 10.0.0.1, corp.lan` puts 10.0.0.1 on the
server list and corp.lan on the search list without error. -/
theorem c10_dns_dispatch_witness :
    processInterfaceKey ⟨{ name := str "t" }, .interfaceSec, true, none⟩
        (str "DNS") (str "10.0.0.1, corp.lan") =
      .ok (withIface ⟨{ name := str "t" }, .interfaceSec, true, none⟩
        (fun i => dnsDispatch i [str "10.0.0.1", str "corp.lan"])) :=
  c10_dns_dispatch.2 ⟨{ name := str "t" }, .interfaceSec, true, none⟩
    (str "DNS") (str "10.0.0.1, corp.lan") [str "10.0.0.1", str "corp.lan"]
    (by decide) rfl

end WgTune

namespace WgTune

/-- C3 amended, instantiated at the counterexample environment. -/
theorem c3_amended_witness :
    warnsAbout .inet confPit 1 envPit (str "eth") =
      specWarnsAbout false .inet confPit 1 envPit (str "eth") :=
  c3_amended .inet confPit 1 envPit (str "eth")

end WgTune
